import Mathlib

/-! Verification of the text-to-image retrieval pipeline of this repository:
the encoder abstraction (`src/encoders`), the FAISS-backed vector index
(`src/indexing/faiss_index.py`) and the retrieval-system orchestration
(`src/retrieval/image_retrieval_system.py`).

External collaborators (the faiss library internals, local model forward
passes, the remote embeddings API, PIL metadata extraction, base64 encoding)
are modelled as an explicit `World` record of deterministic functions; the
repository's own glue logic is translated function by function. -/

namespace TTIR

/-- Images handed to encoders (paths or in-memory images) are opaque tokens. -/
abbrev Img := String

/-- A metadata record (a JSON-like dict), kept opaque as a key-value list. -/
abbrev Meta := List (String × String)

/-- Embedding vectors: rows of numpy float matrices, modelled over the reals. -/
abbrev Vec := List ℝ

/-- Python dict assignment `d[k] = v`: replace the value if the key is
present, otherwise append a new entry (dicts preserve insertion order). -/
def pyDictInsert {κ ν : Type} [DecidableEq κ] (d : List (κ × ν)) (k : κ) (v : ν) :
    List (κ × ν) :=
  if d.any (fun p => decide (p.1 = k)) then
    d.map (fun p => if p.1 = k then (k, v) else p)
  else d ++ [(k, v)]

/-- Python `d.get(k)`: the stored value, if any. -/
def pyDictGet {κ ν : Type} [DecidableEq κ] (d : List (κ × ν)) (k : κ) : Option ν :=
  (d.find? (fun p => decide (p.1 = k))).map (fun p => p.2)

/-- Fuel-driven helper for `chunkList` (structural recursion so that concrete
instances reduce definitionally). -/
def chunkListAux {α : Type} (bs : Nat) : Nat → List α → List (List α)
  | 0, _ => []
  | _ + 1, [] => []
  | fuel + 1, l => l.take bs :: chunkListAux bs fuel (l.drop bs)

/-- The Python batching idiom `[l[i:i+bs] for i in range(0, len(l), bs)]`. -/
def chunkList {α : Type} (l : List α) (bs : Nat) : List (List α) :=
  if bs = 0 then [] else chunkListAux bs l.length l

/-- Sum of squares of the entries of a vector. -/
def sumSq (v : Vec) : ℝ := (v.map (fun x => x * x)).sum

/-- `np.linalg.norm` of one row: the Euclidean norm. -/
noncomputable def vecNorm (v : Vec) : ℝ := Real.sqrt (sumSq v)

/-- The defensive row renormalization `e / np.linalg.norm(e, axis=1)` used by
`FAISSIndex.add_vectors` and `FAISSIndex.search` (faiss_index.py:60,94) and by
the local encoders (clip_encoder.py:59). -/
noncomputable def l2RenormRow (v : Vec) : Vec := v.map (fun x => x / vecNorm v)

/-- Row-wise renormalization of a whole matrix. -/
noncomputable def renormMatrix (m : List Vec) : List Vec := m.map l2RenormRow

/-- `BaseEncoder.normalize_embeddings` (base_encoder.py:51-54): divide each row
by its norm plus the `1e-8` epsilon guard. -/
noncomputable def normalize_embeddings (m : List Vec) : List Vec :=
  m.map (fun v => v.map (fun x => x / (vecNorm v + 1e-8)))

/-- Inner product of two rows (`np.dot`). -/
def dotProduct (a b : Vec) : ℝ := ((a.zip b).map (fun p => p.1 * p.2)).sum

/-- `BaseEncoder.compute_similarity` (base_encoder.py:56-65): renormalize the
query and the candidate matrix, then take row-wise inner products. -/
noncomputable def compute_similarity (q : Vec) (m : List Vec) : List ℝ :=
  (normalize_embeddings m).map (fun v => dotProduct ((normalize_embeddings [q]).headD []) v)

/-- State of the underlying faiss index object created by
`FAISSIndex._create_index` (faiss_index.py:30-47): a flat inner-product index,
an IVF index with its quantizer-training state, or an HNSW graph index. -/
inductive InnerIndex : Type where
  | flat (dim : Nat) (vectors : List Vec)
  | ivf (dim : Nat) (nlist : Nat) (trained : Bool) (trainData : List Vec) (vectors : List Vec)
  | hnsw (dim : Nat) (M : Nat) (vectors : List Vec)

/-- The vectors stored in the faiss index, in insertion order. -/
def InnerIndex.vectors : InnerIndex → List Vec
  | .flat _ vs => vs
  | .ivf _ _ _ _ vs => vs
  | .hnsw _ _ vs => vs

/-- faiss `index.ntotal`: the number of stored vectors. -/
def InnerIndex.ntotal (ix : InnerIndex) : Nat := ix.vectors.length

/-- faiss `index.is_trained`: flat and HNSW indexes are always trained, an IVF
index carries an explicit training flag (initially false). -/
def InnerIndex.isTrained : InnerIndex → Bool
  | .ivf _ _ t _ _ => t
  | _ => true

/-- faiss `index.nlist` for IVF indexes. -/
def InnerIndex.nlistOf : InnerIndex → Nat
  | .ivf _ n _ _ _ => n
  | _ => 0

/-- faiss `index.train(data)`: marks an IVF index trained, recording the
training data that shaped its quantizer; a no-op on other index kinds. -/
def InnerIndex.train (ix : InnerIndex) (data : List Vec) : InnerIndex :=
  match ix with
  | .ivf d n _ _ vs => .ivf d n true data vs
  | other => other

/-- faiss `index.add(rows)`: appends the rows, ids continue from `ntotal`. -/
def InnerIndex.addRows (ix : InnerIndex) (rows : List Vec) : InnerIndex :=
  match ix with
  | .flat d vs => .flat d (vs ++ rows)
  | .ivf d n t td vs => .ivf d n t td (vs ++ rows)
  | .hnsw d m vs => .hnsw d m (vs ++ rows)

/-- The three encoder strategies selectable in
`ImageRetrievalSystem._create_encoder` (image_retrieval_system.py:52-64). -/
inductive EncoderKind : Type where
  | clip
  | siglip
  | nvidia_nim
deriving DecidableEq

/-- An encoder instance: its strategy, its model name, and (for the remote
strategy) the API key it was constructed with. -/
structure Encoder where
  kind : EncoderKind
  model_name : String
  api_key : Option String
deriving DecidableEq

/-- The external world: deterministic behaviour of the libraries the pipeline
calls out to (model forward passes, the remote embeddings endpoint, faiss
search, PIL metadata extraction, base64 conversion). `Option` results model
calls that may raise an exception. -/
structure World : Type where
  localImageForward : EncoderKind → String → Img → Option Vec
  localTextForward : EncoderKind → String → String → Option Vec
  localEmbedDim : EncoderKind → String → Nat
  nimEmbed : String → List String → Option (List Vec)
  imgToB64 : Img → String
  libSearch : InnerIndex → Nat → Vec → Nat → List ℝ × List Int
  extractMeta : String → Meta

/-- ASCII lowercasing of one character (Python `str.lower()` on the ASCII
names this code base uses). -/
def lowerAsciiChar (c : Char) : Char :=
  if 'A' ≤ c ∧ c ≤ 'Z' then Char.ofNat (c.toNat + 32) else c

/-- Python `s.lower()` on ASCII strings. -/
def pyLower (s : String) : String := String.mk (s.toList.map lowerAsciiChar)

/-- Does the first list occur as a prefix of the second? -/
def listStartsWith {α : Type} [DecidableEq α] : List α → List α → Bool
  | [], _ => true
  | _ :: _, [] => false
  | a :: as, b :: bs => decide (a = b) && listStartsWith as bs

/-- Does the first list occur contiguously inside the second? -/
def listContainsSeq {α : Type} [DecidableEq α] (pat : List α) : List α → Bool
  | [] => listStartsWith pat []
  | b :: bs => listStartsWith pat (b :: bs) || listContainsSeq pat bs

/-- Substring test (Python `"pat" in s`). -/
def strContains (s pat : String) : Bool := listContainsSeq pat.toList s.toList

/-- `NVIDIANIMEncoder.get_embedding_dim` (nvidia_nim_encoder.py): 512 for
nvclip models, 1024 for dinov2 models, 512 otherwise. -/
def nimEmbeddingDim (model_name : String) : Nat :=
  if strContains (pyLower model_name) "nvclip" then 512
  else if strContains (pyLower model_name) "dinov2" then 1024
  else 512

/-- Python truthiness of `model_name or default`: `None` and the empty string
fall back to the default. -/
def orPyDefault (m : Option String) (d : String) : String :=
  match m with
  | some s => if s = "" then d else s
  | none => d

/-- `ImageRetrievalSystem._create_encoder` (image_retrieval_system.py:52-64):
select the encoder class by the lowercased type name, substituting the default
model name; an unsupported name raises `ValueError` (here: `none`). -/
def createEncoder (encoder_type : String) (model_name : Option String)
    (nvidia_api_key : Option String) : Option Encoder :=
  if pyLower encoder_type = "clip" then
    some ⟨.clip, orPyDefault model_name "openai/clip-vit-base-patch32", none⟩
  else if pyLower encoder_type = "siglip" then
    some ⟨.siglip, orPyDefault model_name "google/siglip-base-patch16-224", none⟩
  else if pyLower encoder_type = "nvidia_nim" then
    some ⟨.nvidia_nim, orPyDefault model_name "nvidia/nvclip", nvidia_api_key⟩
  else none

/-- Embedding dimension as a function of strategy and model name: the remote
encoder computes it from the model name, the local encoders read it from the
loaded model configuration (`model.config.projection_dim`), here part of the
world. -/
def embedDimCore (w : World) (k : EncoderKind) (model : String) : Nat :=
  match k with
  | .nvidia_nim => nimEmbeddingDim model
  | k' => w.localEmbedDim k' model

/-- `get_embedding_dim` of an encoder instance. -/
def Encoder.get_embedding_dim (w : World) (e : Encoder) : Nat :=
  embedDimCore w e.kind e.model_name

/-- One batch of the remote encoder's request loop: on success the rows the
provider returned, on failure (`except`) one zero vector of the model's
embedding dimension per input (nvidia_nim_encoder.py:84-107). -/
def nimBatchRows (w : World) (model : String) (dim : Nat) (b : List String) : List Vec :=
  match w.nimEmbed model b with
  | some embs => embs
  | none => List.replicate b.length (List.replicate dim 0)

/-- The shared shape of `NVIDIANIMEncoder.encode_images` / `encode_text`:
chunk the inputs, collect per-batch rows (zero-filled on failure), then apply
the epsilon-guarded normalization. -/
noncomputable def nimEncodeRaw (w : World) (model : String) (dim : Nat)
    (inputs : List String) (bs : Nat) : List Vec :=
  normalize_embeddings ((chunkList inputs bs).flatMap (nimBatchRows w model dim))

/-- `NVIDIANIMEncoder.encode_images` (nvidia_nim_encoder.py:56-107): convert
each image to base64, send in batches, zero-fill failed batches, normalize. -/
noncomputable def nimEncodeImages (w : World) (model : String) (images : List Img)
    (bs : Nat) : List Vec :=
  nimEncodeRaw w model (nimEmbeddingDim model) (images.map w.imgToB64) bs

/-- `NVIDIANIMEncoder.encode_text` (nvidia_nim_encoder.py:109-146): same loop
over raw text inputs. -/
noncomputable def nimEncodeText (w : World) (model : String) (texts : List String)
    (bs : Nat) : List Vec :=
  nimEncodeRaw w model (nimEmbeddingDim model) texts bs

/-- Local (CLIP/SigLIP) image encoding (clip_encoder.py:27-63): a forward pass
per image followed by row normalization; any per-image failure propagates as
an exception. Batch boundaries do not affect the values. -/
noncomputable def localEncodeImages (w : World) (k : EncoderKind) (model : String)
    (images : List Img) : Option (List Vec) :=
  (images.mapM (w.localImageForward k model)).map (fun rows => rows.map l2RenormRow)

/-- Local (CLIP/SigLIP) text encoding (clip_encoder.py:65-94). -/
noncomputable def localEncodeText (w : World) (k : EncoderKind) (model : String)
    (texts : List String) : Option (List Vec) :=
  (texts.mapM (w.localTextForward k model)).map (fun rows => rows.map l2RenormRow)

/-- `encode_images` dispatched on the encoder strategy; `none` models an
exception escaping the call (the remote strategy never raises). -/
noncomputable def encodeImagesCore (w : World) (k : EncoderKind) (model : String)
    (images : List Img) (bs : Nat) : Option (List Vec) :=
  match k with
  | .nvidia_nim => some (nimEncodeImages w model images bs)
  | k' => localEncodeImages w k' model images

/-- `encode_text` dispatched on the encoder strategy. -/
noncomputable def encodeTextCore (w : World) (k : EncoderKind) (model : String)
    (texts : List String) (bs : Nat) : Option (List Vec) :=
  match k with
  | .nvidia_nim => some (nimEncodeText w model texts bs)
  | k' => localEncodeText w k' model texts

/-- `encoder.encode_images(...)` on an encoder instance. -/
noncomputable def Encoder.encode_images (w : World) (e : Encoder) (images : List Img)
    (bs : Nat) : Option (List Vec) :=
  encodeImagesCore w e.kind e.model_name images bs

/-- `encoder.encode_text(...)` on an encoder instance. -/
noncomputable def Encoder.encode_text (w : World) (e : Encoder) (texts : List String)
    (bs : Nat) : Option (List Vec) :=
  encodeTextCore w e.kind e.model_name texts bs

/-- Default `batch_size` of `encode_images` per strategy (clip_encoder.py:27,
nvidia_nim_encoder.py:56). -/
def EncoderKind.defaultImageBS : EncoderKind → Nat
  | .nvidia_nim => 10
  | _ => 32

/-- Default `batch_size` of `encode_text` per strategy (clip_encoder.py:65,
nvidia_nim_encoder.py:109). -/
def EncoderKind.defaultTextBS : EncoderKind → Nat
  | .nvidia_nim => 20
  | _ => 32

/-- State of a `FAISSIndex` object (faiss_index.py:14-28): the wrapped faiss
index plus the parallel id-to-path list and the id-keyed metadata dict. -/
structure FAISSIndex where
  embedding_dim : Nat
  index_type : String
  inner : InnerIndex
  image_paths : List String
  metadata : List (Nat × Meta)

/-- `FAISSIndex._create_index` (faiss_index.py:30-47): flat inner-product,
IVF with `nlist = 100` clusters (quantizer untrained), or HNSW with `M = 16`;
any other type name raises `ValueError`. -/
def createInner (dim : Nat) (t : String) : Option InnerIndex :=
  if t = "flat" then some (.flat dim [])
  else if t = "ivf" then some (.ivf dim 100 false [] [])
  else if t = "hnsw" then some (.hnsw dim 16 [])
  else none

/-- `FAISSIndex.__init__` (faiss_index.py:14-28): empty path list, empty
metadata dict, and a freshly created inner index. -/
def FAISSIndex.create (embedding_dim : Nat) (index_type : String) : Option FAISSIndex :=
  match createInner embedding_dim index_type with
  | some ix => some ⟨embedding_dim, index_type, ix, [], []⟩
  | none => none

/-- The training condition of `FAISSIndex.add_vectors` (faiss_index.py:63):
`self.index_type == "ivf" and not self.index.is_trained`. -/
def FAISSIndex.wouldTrain (idx : FAISSIndex) : Bool :=
  idx.index_type = "ivf" && !idx.inner.isTrained

/-- Store metadata records under ids `start_id`, `start_id + 1`, ...
(faiss_index.py:73-75). -/
def insertMetas (d : List (Nat × Meta)) (start : Nat) : List Meta → List (Nat × Meta)
  | [] => d
  | m :: ms => insertMetas (pyDictInsert d start m) (start + 1) ms

/-- `FAISSIndex.add_vectors` (faiss_index.py:49-77): renormalize the rows,
lazily train an untrained IVF index on them, append the rows to the faiss
index, extend the path list, and record metadata keyed by the next sequential
ids (`start_id = len(self.image_paths)`). A `metadata` argument that is `None`
or the empty list (both falsy) stores nothing. -/
noncomputable def FAISSIndex.add_vectors (idx : FAISSIndex) (embeddings : List Vec)
    (image_paths : List String) (metadata : Option (List Meta)) : FAISSIndex :=
  let rows := renormMatrix embeddings
  let inner₁ := if idx.wouldTrain then idx.inner.train rows else idx.inner
  let start_id := idx.image_paths.length
  let metadata' :=
    match metadata with
    | some ms => insertMetas idx.metadata start_id ms
    | none => idx.metadata
  { idx with
      inner := inner₁.addRows rows
      image_paths := idx.image_paths ++ image_paths
      metadata := metadata' }

/-- `FAISSIndex.search` (faiss_index.py:79-110): an empty index yields
`([], [])`; otherwise the query row is renormalized, `nprobe` is set to
`min(10, nlist)` for IVF indexes, the faiss search runs, and the resulting
(score, id) pairs are filtered to valid (non `-1`) ids and unzipped
(yielding `([], [])` again when nothing remains). -/
noncomputable def FAISSIndex.search (w : World) (idx : FAISSIndex) (query : Vec)
    (top_k : Nat) : List ℝ × List Int :=
  if idx.inner.ntotal = 0 then ([], [])
  else
    let qn := l2RenormRow query
    let nprobe := if idx.index_type = "ivf" then min 10 idx.inner.nlistOf else 0
    let res := w.libSearch idx.inner nprobe qn top_k
    let valid := (res.1.zip res.2).filter (fun p => decide (p.2 ≠ -1))
    if valid = [] then ([], [])
    else (valid.map (fun p => p.1), valid.map (fun p => p.2))

/-- `FAISSIndex.get_image_path` (faiss_index.py:112-116): the stored path for
an in-range id, the empty string otherwise. -/
def FAISSIndex.get_image_path (idx : FAISSIndex) (index_id : Int) : String :=
  if 0 ≤ index_id ∧ index_id < (idx.image_paths.length : Int) then
    idx.image_paths.getD index_id.toNat ""
  else ""

/-- `FAISSIndex.get_metadata` (faiss_index.py:118-120):
`self.metadata.get(index_id, {})`. -/
def FAISSIndex.get_metadata (idx : FAISSIndex) (index_id : Int) : Meta :=
  ((idx.metadata.find? (fun p => decide ((p.1 : Int) = index_id))).map (fun p => p.2)).getD []

/-- Contents of the `{path}_metadata.pkl` sidecar written by
`FAISSIndex.save_index` (faiss_index.py:133-138). -/
structure IndexMetaFile where
  embedding_dim : Nat
  index_type : String
  image_paths : List String
  metadata : List (Nat × Meta)

/-- The two co-located artifacts a saved index consists of: the serialized
faiss structure (`{path}.faiss`) and the pickled sidecar. -/
structure SavedIndex where
  faissFile : InnerIndex
  metaFile : IndexMetaFile

/-- `FAISSIndex.save_index` (faiss_index.py:122-143). -/
def FAISSIndex.save_index (idx : FAISSIndex) : SavedIndex :=
  ⟨idx.inner, ⟨idx.embedding_dim, idx.index_type, idx.image_paths, idx.metadata⟩⟩

/-- `FAISSIndex.load_index` (faiss_index.py:145-170): every in-memory field —
the faiss index, dimension, structure type, path list and metadata — is
overwritten with the persisted values; nothing of the prior state survives. -/
def FAISSIndex.load_index (_idx : FAISSIndex) (s : SavedIndex) : FAISSIndex :=
  ⟨s.metaFile.embedding_dim, s.metaFile.index_type, s.faissFile,
    s.metaFile.image_paths, s.metaFile.metadata⟩

/-- The dict returned by `FAISSIndex.get_stats` (faiss_index.py:172-179). -/
structure IndexStats where
  total_vectors : Nat
  embedding_dim : Nat
  index_type : String
  total_images : Nat
deriving DecidableEq

/-- `FAISSIndex.get_stats`. -/
def FAISSIndex.get_stats (idx : FAISSIndex) : IndexStats :=
  ⟨idx.inner.ntotal, idx.embedding_dim, idx.index_type, idx.image_paths.length⟩

/-- State of an `ImageRetrievalSystem` (image_retrieval_system.py:19-50). -/
structure System where
  encoder_type : String
  index_type : String
  nvidia_api_key : Option String
  encoder : Encoder
  index : FAISSIndex
  image_database : List (String × Meta)

/-- `ImageRetrievalSystem.__init__` (image_retrieval_system.py:19-50): build
the encoder, size the index by the encoder's embedding dimension, start with
an empty image database. Unsupported encoder or index type names raise. -/
def System.create (w : World) (encoder_type : String) (model_name : Option String)
    (index_type : String) (nvidia_api_key : Option String) : Option System :=
  match createEncoder encoder_type model_name nvidia_api_key with
  | none => none
  | some e =>
    match FAISSIndex.create (e.get_embedding_dim w) index_type with
    | none => none
    | some idx => some ⟨encoder_type, index_type, nvidia_api_key, e, idx, []⟩

/-- One result entry built by `ImageRetrievalSystem.search` /
`search_by_image` (image_retrieval_system.py:180-195). -/
structure SearchResult where
  image_path : String
  similarity_score : ℝ
  rank : Nat
  metadata : Option Meta

/-- The result-construction loop shared by `search` and `search_by_image`:
zip scores with ids, resolve each id to a path, attach a 1-based rank by
output position, and optionally the path's metadata record
(`self.image_database.get(image_path, {})`). -/
def buildResults (idx : FAISSIndex) (db : List (String × Meta)) (scores : List ℝ)
    (indices : List Int) (return_metadata : Bool) : List SearchResult :=
  (scores.zip indices).enum.map (fun p =>
    let path := idx.get_image_path p.2.2
    { image_path := path
      similarity_score := p.2.1
      rank := p.1 + 1
      metadata := if return_metadata then some ((pyDictGet db path).getD []) else none })

/-- `ImageRetrievalSystem.search` (image_retrieval_system.py:154-195): an
empty index short-circuits to the empty result list; otherwise the query text
is encoded (an encoder exception propagates: `none`) and the index searched. -/
noncomputable def System.search (w : World) (s : System) (query : String) (top_k : Nat)
    (return_metadata : Bool) : Option (List SearchResult) :=
  if s.index.inner.ntotal = 0 then some []
  else
    match s.encoder.encode_text w [query] s.encoder.kind.defaultTextBS with
    | none => none
    | some qm =>
      let res := s.index.search w (qm.headD []) top_k
      some (buildResults s.index s.image_database res.1 res.2 return_metadata)

/-- `ImageRetrievalSystem.search_by_image` (image_retrieval_system.py:197-238):
identical contract with image encoding of a single-element list. -/
noncomputable def System.search_by_image (w : World) (s : System) (image : Img)
    (top_k : Nat) (return_metadata : Bool) : Option (List SearchResult) :=
  if s.index.inner.ntotal = 0 then some []
  else
    match s.encoder.encode_images w [image] s.encoder.kind.defaultImageBS with
    | none => none
    | some qm =>
      let res := s.index.search w (qm.headD []) top_k
      some (buildResults s.index s.image_database res.1 res.2 return_metadata)

/-- One iteration of the ingestion loop of
`ImageRetrievalSystem.add_images_from_directory`
(image_retrieval_system.py:104-124): encode the batch; on an exception the
batch is skipped wholesale (nothing is added, the count is unchanged);
otherwise each path's extracted metadata enters the image database, the batch
enters the index, and the count grows by the batch length. -/
noncomputable def ingestStep (w : World) (bs : Nat) (acc : System × Nat)
    (batch : List Img) : System × Nat :=
  match acc.1.encoder.encode_images w batch bs with
  | none => acc
  | some embs =>
    let metas := batch.map w.extractMeta
    let db := batch.foldl (fun d p => pyDictInsert d p (w.extractMeta p)) acc.1.image_database
    let s' := { acc.1 with
        image_database := db
        index := acc.1.index.add_vectors embs batch (some metas) }
    (s', acc.2 + batch.length)

/-- `ImageRetrievalSystem.add_images_from_directory`
(image_retrieval_system.py:66-127), with the directory enumeration's result
(`glob`) passed in as `files`: returns 0 and changes nothing when no files
matched; otherwise processes the files in batches and returns the updated
system together with the count of successfully ingested images. -/
noncomputable def System.add_images_from_directory (w : World) (s : System)
    (files : List String) (batch_size : Nat) : System × Nat :=
  if files = [] then (s, 0)
  else (chunkList files batch_size).foldl (ingestStep w batch_size) (s, 0)

/-- Contents of the `{path}_config.json` document written by
`ImageRetrievalSystem.save_system` (image_retrieval_system.py:250-260). -/
structure SystemConfig where
  encoder_type : String
  model_name : String
  index_type : String
  image_database : List (String × Meta)
  embedding_dim : Nat

/-- The durable artifacts of a saved system: the index files plus the
configuration document. -/
structure SavedSystem where
  indexFiles : SavedIndex
  config : SystemConfig

/-- `ImageRetrievalSystem.save_system` (image_retrieval_system.py:240-262):
save the index, then write encoder type, the encoder's model name, the
system-level `index_type`, the image database and the encoder's embedding
dimension to the configuration document. -/
def System.save_system (w : World) (s : System) : SavedSystem :=
  ⟨s.index.save_index,
    ⟨s.encoder_type, s.encoder.model_name, s.index_type, s.image_database,
      s.encoder.get_embedding_dim w⟩⟩

/-- `ImageRetrievalSystem.load_system` (image_retrieval_system.py:264-290):
re-create the encoder from the persisted encoder type and model name (with a
fresh API key), load the index from the co-located files, and replace the
image database with the persisted one. The system-level `index_type` field is
not touched. -/
def System.load_system (_w : World) (s : System) (saved : SavedSystem)
    (nvidia_api_key : Option String) : Option System :=
  match createEncoder saved.config.encoder_type (some saved.config.model_name)
      nvidia_api_key with
  | none => none
  | some e =>
    some { s with
        encoder_type := saved.config.encoder_type
        nvidia_api_key := nvidia_api_key
        encoder := e
        index := s.index.load_index saved.indexFiles
        image_database := saved.config.image_database }

/-- The dict returned by `ImageRetrievalSystem.get_stats`
(image_retrieval_system.py:292-302). -/
structure SystemStats where
  encoder_type : String
  model_name : String
  total_images : Nat
  index_stats : IndexStats
  embedding_dim : Nat
deriving DecidableEq

/-- `ImageRetrievalSystem.get_stats`. -/
def System.get_stats (w : World) (s : System) : SystemStats :=
  ⟨s.encoder_type, s.encoder.model_name, s.image_database.length,
    s.index.get_stats, s.encoder.get_embedding_dim w⟩

/-- A system whose encoder field was produced by `_create_encoder` for its
recorded encoder type — true of every constructed or loaded system. -/
def System.WF (s : System) : Prop :=
  ∃ mn k, createEncoder s.encoder_type mn k = some s.encoder

/-! ### Supporting lemmas -/

theorem load_save_index (a b : FAISSIndex) : a.load_index b.save_index = b := rfl

theorem isTrained_addRows (ix : InnerIndex) (r : List Vec) :
    (ix.addRows r).isTrained = ix.isTrained := by cases ix <;> rfl

theorem vectors_addRows (ix : InnerIndex) (r : List Vec) :
    (ix.addRows r).vectors = ix.vectors ++ r := by cases ix <;> rfl

theorem vectors_train (ix : InnerIndex) (d : List Vec) :
    (ix.train d).vectors = ix.vectors := by cases ix <;> rfl

theorem create_fields {dim : Nat} {t : String} {idx : FAISSIndex}
    (h : FAISSIndex.create dim t = some idx) :
    idx.embedding_dim = dim ∧ idx.index_type = t ∧ idx.image_paths = [] ∧
      idx.metadata = [] ∧ idx.inner.vectors = [] := by
  unfold FAISSIndex.create at h
  cases hc : createInner dim t with
  | none => rw [hc] at h; cases h
  | some ix =>
    rw [hc] at h
    cases h
    refine ⟨rfl, rfl, rfl, rfl, ?_⟩
    unfold createInner at hc
    split at hc
    · cases hc; rfl
    · split at hc
      · cases hc; rfl
      · split at hc
        · cases hc; rfl
        · cases hc

theorem add_vectors_fields (idx : FAISSIndex) (e : List Vec) (p : List String)
    (m : Option (List Meta)) :
    (idx.add_vectors e p m).image_paths = idx.image_paths ++ p ∧
      (idx.add_vectors e p m).inner.vectors = idx.inner.vectors ++ renormMatrix e ∧
      (idx.add_vectors e p m).embedding_dim = idx.embedding_dim ∧
      (idx.add_vectors e p m).index_type = idx.index_type := by
  unfold FAISSIndex.add_vectors
  refine ⟨rfl, ?_, rfl, rfl⟩
  split
  · rw [vectors_addRows, vectors_train]
  · rw [vectors_addRows]

theorem add_vectors_metadata_some (idx : FAISSIndex) (e : List Vec) (p : List String)
    (ms : List Meta) :
    (idx.add_vectors e p (some ms)).metadata =
      insertMetas idx.metadata idx.image_paths.length ms := rfl

theorem add_vectors_inner (idx : FAISSIndex) (e : List Vec) (p : List String)
    (m : Option (List Meta)) :
    (idx.add_vectors e p m).inner =
      (if idx.wouldTrain then idx.inner.train (renormMatrix e)
        else idx.inner).addRows (renormMatrix e) := rfl

theorem wouldTrain_false_of_trained (idx : FAISSIndex)
    (h : idx.inner.isTrained = true) : idx.wouldTrain = false := by
  unfold FAISSIndex.wouldTrain
  rw [h]
  simp

theorem add_vectors_inner_of_trained (idx : FAISSIndex) (e : List Vec)
    (p : List String) (m : Option (List Meta)) (h : idx.wouldTrain = false) :
    (idx.add_vectors e p m).inner = idx.inner.addRows (renormMatrix e) := by
  rw [add_vectors_inner, h]
  simp

/-! ### C2 — empty-index searches return empty results, not exceptions -/

/-- C2: for every index containing zero vectors and every query vector and
`top_k`, `FAISSIndex.search` returns `([], [])` without raising; likewise the
system-level `search` and `search_by_image` on a system with zero indexed
vectors return an empty result list (`some []`, never an exception). -/
theorem searchOnEmptyIsEmpty (w : World) (idx : FAISSIndex) (s : System) (q : Vec)
    (query : String) (img : Img) (k k₁ k₂ : Nat) (rm rm₂ : Bool)
    (hidx : idx.inner.ntotal = 0) (hs : s.index.inner.ntotal = 0) :
    idx.search w q k = ([], []) ∧
      s.search w query k₁ rm = some [] ∧
      s.search_by_image w img k₂ rm₂ = some [] := by
  refine ⟨?_, ?_, ?_⟩
  · unfold FAISSIndex.search; rw [if_pos hidx]
  · unfold System.search; rw [if_pos hs]
  · unfold System.search_by_image; rw [if_pos hs]

/-- A concrete world: deterministic dummy behaviour for every external call
(the remote embeddings endpoint always fails). -/
def wDemo : World where
  localImageForward := fun _ _ _ => some [1, 0]
  localTextForward := fun _ _ _ => some [1, 0]
  localEmbedDim := fun _ _ => 2
  nimEmbed := fun _ _ => none
  imgToB64 := fun i => i
  libSearch := fun _ _ _ _ => ([], [])
  extractMeta := fun _ => []

/-- A freshly created flat index holding no vectors. -/
def idxEmpty : FAISSIndex := ⟨2, "flat", .flat 2 [], [], []⟩

/-- A system over `idxEmpty` with a CLIP encoder. -/
def sEmpty : System :=
  ⟨"clip", "flat", none, ⟨.clip, "openai/clip-vit-base-patch32", none⟩, idxEmpty, []⟩

/-- Witness for C2 at a concrete empty index and system. -/
theorem searchOnEmptyIsEmpty_witness :
    idxEmpty.search wDemo [1, 0] 5 = ([], []) ∧
      sEmpty.search wDemo "cat" 10 true = some [] ∧
      sEmpty.search_by_image wDemo "q.jpg" 3 false = some [] :=
  searchOnEmptyIsEmpty wDemo idxEmpty sEmpty [1, 0] "cat" "q.jpg" 5 10 3 true false rfl rfl

/-! ### C9 — id-based lookups are total and never raise -/

/-- C9: `get_image_path` returns the stored path for every id `0 ≤ id < len`
and the empty string for every other integer id; `get_metadata` returns the
stored record when the id has one and the empty mapping otherwise. -/
theorem idLookupsTotal (idx : FAISSIndex) (index_id : Int) :
    (∀ p, 0 ≤ index_id → idx.image_paths[index_id.toNat]? = some p →
      idx.get_image_path index_id = p) ∧
    (index_id < 0 ∨ (idx.image_paths.length : Int) ≤ index_id →
      idx.get_image_path index_id = "") ∧
    (∀ q, idx.metadata.find? (fun r => decide ((r.1 : Int) = index_id)) = some q →
      idx.get_metadata index_id = q.2) ∧
    (idx.metadata.find? (fun r => decide ((r.1 : Int) = index_id)) = none →
      idx.get_metadata index_id = []) := by
  refine ⟨?_, ?_, ?_, ?_⟩
  · intro p hnn hp
    have hlt : index_id.toNat < idx.image_paths.length := by
      by_contra hge
      rw [List.getElem?_eq_none (by omega)] at hp
      cases hp
    unfold FAISSIndex.get_image_path
    rw [if_pos ⟨hnn, by omega⟩, List.getD_eq_getElem _ _ hlt]
    rw [List.getElem?_eq_some_iff] at hp
    obtain ⟨h', hv⟩ := hp
    exact hv
  · intro hout
    unfold FAISSIndex.get_image_path
    rw [if_neg]
    omega
  · intro q hq
    unfold FAISSIndex.get_metadata
    rw [hq]
    rfl
  · intro hq
    unfold FAISSIndex.get_metadata
    rw [hq]
    rfl

/-- An index holding one vector for path "a.jpg" with one metadata record. -/
def idxDemo : FAISSIndex :=
  ⟨2, "flat", .flat 2 [[1, 0]], ["a.jpg"], [(0, [("filename", "a.jpg")])]⟩

/-- Witness for C9: lookups on a concrete index, inside and outside range. -/
theorem idLookupsTotal_witness :
    idxDemo.get_image_path 0 = "a.jpg" ∧ idxDemo.get_image_path (-3) = "" ∧
      idxDemo.get_metadata 0 = [("filename", "a.jpg")] ∧ idxDemo.get_metadata 7 = [] := by
  refine ⟨(idLookupsTotal idxDemo 0).1 "a.jpg" (by decide) rfl,
    (idLookupsTotal idxDemo (-3)).2.1 (Or.inl (by decide)),
    (idLookupsTotal idxDemo 0).2.2.1 (0, [("filename", "a.jpg")]) rfl,
    (idLookupsTotal idxDemo 7).2.2.2 rfl⟩

/-! ### C3 — sequential ids by insertion order -/

/-- C3: starting from a freshly created index, adding 2 vectors and then 3
vectors stores metadata under the sequential ids `[0, 1]` and then
`[2, 3, 4]`, appends the paths in insertion order, makes `get_image_path 4`
return the 5th path added, and leaves the previously assigned ids untouched —
ids are never reused or reassigned. -/
theorem sequentialIdsByInsertion (dim : Nat) (t : String) (idx₀ : FAISSIndex)
    (hc : FAISSIndex.create dim t = some idx₀)
    (v₁ v₂ v₃ v₄ v₅ : Vec) (p₁ p₂ p₃ p₄ p₅ : String) (m₁ m₂ m₃ m₄ m₅ : Meta) :
    (idx₀.add_vectors [v₁, v₂] [p₁, p₂] (some [m₁, m₂])).metadata =
      [(0, m₁), (1, m₂)] ∧
    ((idx₀.add_vectors [v₁, v₂] [p₁, p₂] (some [m₁, m₂])).add_vectors
        [v₃, v₄, v₅] [p₃, p₄, p₅] (some [m₃, m₄, m₅])).metadata =
      [(0, m₁), (1, m₂), (2, m₃), (3, m₄), (4, m₅)] ∧
    (idx₀.add_vectors [v₁, v₂] [p₁, p₂] (some [m₁, m₂])).image_paths = [p₁, p₂] ∧
    ((idx₀.add_vectors [v₁, v₂] [p₁, p₂] (some [m₁, m₂])).add_vectors
        [v₃, v₄, v₅] [p₃, p₄, p₅] (some [m₃, m₄, m₅])).image_paths =
      [p₁, p₂, p₃, p₄, p₅] ∧
    ((idx₀.add_vectors [v₁, v₂] [p₁, p₂] (some [m₁, m₂])).add_vectors
        [v₃, v₄, v₅] [p₃, p₄, p₅] (some [m₃, m₄, m₅])).get_image_path 4 = p₅ ∧
    (∀ j : Int, 0 ≤ j → j < 2 →
      ((idx₀.add_vectors [v₁, v₂] [p₁, p₂] (some [m₁, m₂])).add_vectors
          [v₃, v₄, v₅] [p₃, p₄, p₅] (some [m₃, m₄, m₅])).get_image_path j =
        (idx₀.add_vectors [v₁, v₂] [p₁, p₂] (some [m₁, m₂])).get_image_path j) := by
  obtain ⟨-, -, hpaths, hmeta, -⟩ := create_fields hc
  have h₁ : (idx₀.add_vectors [v₁, v₂] [p₁, p₂] (some [m₁, m₂])).metadata =
      [(0, m₁), (1, m₂)] := by
    rw [add_vectors_metadata_some, hpaths, hmeta]
    simp [insertMetas, pyDictInsert]
  have h₂ : (idx₀.add_vectors [v₁, v₂] [p₁, p₂] (some [m₁, m₂])).image_paths =
      [p₁, p₂] := by
    rw [(add_vectors_fields idx₀ [v₁, v₂] [p₁, p₂] (some [m₁, m₂])).1, hpaths]
    rfl
  have h₃ : ((idx₀.add_vectors [v₁, v₂] [p₁, p₂] (some [m₁, m₂])).add_vectors
      [v₃, v₄, v₅] [p₃, p₄, p₅] (some [m₃, m₄, m₅])).image_paths =
      [p₁, p₂, p₃, p₄, p₅] := by
    rw [(add_vectors_fields _ [v₃, v₄, v₅] [p₃, p₄, p₅] (some [m₃, m₄, m₅])).1, h₂]
    rfl
  refine ⟨h₁, ?_, h₂, h₃, ?_, ?_⟩
  · rw [add_vectors_metadata_some, h₁, h₂]
    simp [insertMetas, pyDictInsert]
  · unfold FAISSIndex.get_image_path
    rw [h₃]
    simp [List.getD]
  · intro j hj0 hj2
    have hj : j = 0 ∨ j = 1 := by omega
    unfold FAISSIndex.get_image_path
    rw [h₃, h₂]
    rcases hj with rfl | rfl <;> simp [List.getD]

/-- Witness for C3 on a freshly created flat index of dimension 2. -/
theorem sequentialIdsByInsertion_witness :
    FAISSIndex.create 2 "flat" = some ⟨2, "flat", .flat 2 [], [], []⟩ ∧
      ((⟨2, "flat", .flat 2 [], [], []⟩ : FAISSIndex).add_vectors
          [[1, 0], [0, 1]] ["p1", "p2"] (some [[], []])).image_paths = ["p1", "p2"] := by
  have h := sequentialIdsByInsertion 2 "flat" ⟨2, "flat", .flat 2 [], [], []⟩ rfl
    [1, 0] [0, 1] [1, 1] [0, 0] [1, 0] "p1" "p2" "p3" "p4" "p5" [] [] [] [] []
  exact ⟨rfl, h.2.2.1⟩

/-! ### C7 — lazy one-time IVF training -/

/-- C7: a freshly created IVF index is untrained; the first `add_vectors` call
meets the training condition and flips the trained flag to true; afterwards
the training condition is never met again — a second call merely appends rows
without retraining, and the flag stays true under every further call. -/
theorem ivfTrainsOnce (dim : Nat) (idx₀ : FAISSIndex)
    (hc : FAISSIndex.create dim "ivf" = some idx₀)
    (e₁ e₂ : List Vec) (p₁ p₂ : List String) (m₁ m₂ : Option (List Meta)) :
    idx₀.inner.isTrained = false ∧
      idx₀.wouldTrain = true ∧
      (idx₀.add_vectors e₁ p₁ m₁).inner.isTrained = true ∧
      (idx₀.add_vectors e₁ p₁ m₁).wouldTrain = false ∧
      ((idx₀.add_vectors e₁ p₁ m₁).add_vectors e₂ p₂ m₂).inner =
        (idx₀.add_vectors e₁ p₁ m₁).inner.addRows (renormMatrix e₂) ∧
      ((idx₀.add_vectors e₁ p₁ m₁).add_vectors e₂ p₂ m₂).inner.isTrained = true ∧
      (∀ (idx : FAISSIndex) (e : List Vec) (p : List String) (m : Option (List Meta)),
        idx.inner.isTrained = true → (idx.add_vectors e p m).inner.isTrained = true) := by
  have hidx : idx₀ = ⟨dim, "ivf", .ivf dim 100 false [] [], [], []⟩ := by
    unfold FAISSIndex.create createInner at hc
    simp only [reduceIte] at hc
    cases hc
    rfl
  have hmono : ∀ (idx : FAISSIndex) (e : List Vec) (p : List String)
      (m : Option (List Meta)),
      idx.inner.isTrained = true → (idx.add_vectors e p m).inner.isTrained = true := by
    intro idx e p m ht
    rw [add_vectors_inner_of_trained idx e p m (wouldTrain_false_of_trained idx ht),
      isTrained_addRows]
    exact ht
  subst hidx
  have hw0 : (⟨dim, "ivf", .ivf dim 100 false [] [], [], []⟩ : FAISSIndex).wouldTrain =
      true := rfl
  have ht1 : ((⟨dim, "ivf", .ivf dim 100 false [] [], [], []⟩ : FAISSIndex).add_vectors
      e₁ p₁ m₁).inner.isTrained = true := by
    rw [add_vectors_inner, isTrained_addRows, hw0]
    rfl
  have hw1 := wouldTrain_false_of_trained _ ht1
  refine ⟨rfl, rfl, ht1, hw1, add_vectors_inner_of_trained _ e₂ p₂ m₂ hw1, ?_,
    hmono⟩
  rw [add_vectors_inner_of_trained _ e₂ p₂ m₂ hw1, isTrained_addRows]
  exact ht1

/-- Witness for C7 on a freshly created IVF index of dimension 4. -/
theorem ivfTrainsOnce_witness :
    FAISSIndex.create 4 "ivf" =
        some ⟨4, "ivf", .ivf 4 100 false [] [], [], []⟩ ∧
      ((⟨4, "ivf", .ivf 4 100 false [] [], [], []⟩ : FAISSIndex).add_vectors
          [[1, 0, 0, 0]] ["p1"] none).inner.isTrained = true := by
  have h := ivfTrainsOnce 4 ⟨4, "ivf", .ivf 4 100 false [] [], [], []⟩ rfl
    [[1, 0, 0, 0]] [[0, 1, 0, 0]] ["p1"] ["p2"] none none
  exact ⟨rfl, h.2.2.1⟩

/-! ### C6 — id-to-path mapping stays parallel to the vector store -/

/-- The invariant of C6: the id-to-path list is exactly as long as the number
of vectors held by the faiss index. -/
def IndexInv (idx : FAISSIndex) : Prop :=
  idx.image_paths.length = idx.inner.ntotal

/-- C6: the parallel-arrays invariant holds at creation, is preserved by every
`add_vectors` call whose path list matches the embedding rows (paths and
vectors both grow at the tail, in insertion order), and survives a
save/load round trip. -/
theorem parallelArraysInvariant :
    (∀ (dim : Nat) (t : String) (idx : FAISSIndex),
      FAISSIndex.create dim t = some idx → IndexInv idx) ∧
    (∀ (idx : FAISSIndex) (e : List Vec) (p : List String) (m : Option (List Meta)),
      IndexInv idx → p.length = e.length →
        IndexInv (idx.add_vectors e p m) ∧
        (idx.add_vectors e p m).image_paths = idx.image_paths ++ p ∧
        (idx.add_vectors e p m).inner.vectors = idx.inner.vectors ++ renormMatrix e) ∧
    (∀ idx idx' : FAISSIndex, IndexInv idx' →
      IndexInv (idx.load_index idx'.save_index)) := by
  refine ⟨?_, ?_, ?_⟩
  · intro dim t idx hc
    obtain ⟨-, -, hp, -, hv⟩ := create_fields hc
    unfold IndexInv InnerIndex.ntotal
    rw [hp, hv]
    rfl
  · intro idx e p m hinv hlen
    obtain ⟨hp, hv, -, -⟩ := add_vectors_fields idx e p m
    refine ⟨?_, hp, hv⟩
    unfold IndexInv InnerIndex.ntotal at *
    rw [hp, hv, List.length_append, List.length_append, hinv, hlen]
    unfold renormMatrix
    rw [List.length_map]
  · intro idx idx' hinv
    rw [load_save_index]
    exact hinv

/-- Witness for C6: the invariant at a concrete creation, insertion and
round trip. -/
theorem parallelArraysInvariant_witness :
    IndexInv idxEmpty ∧ IndexInv (idxEmpty.add_vectors [[1, 0]] ["p1"] none) ∧
      IndexInv (idxEmpty.load_index idxDemo.save_index) := by
  refine ⟨parallelArraysInvariant.1 2 "flat" idxEmpty rfl, ?_, ?_⟩
  · exact (parallelArraysInvariant.2.1 idxEmpty [[1, 0]] ["p1"] none
      (parallelArraysInvariant.1 2 "flat" idxEmpty rfl) rfl).1
  · exact parallelArraysInvariant.2.2 idxEmpty idxDemo rfl

/-! ### C8 — normalization is idempotent on unit-norm vectors -/

theorem sumSq_nonneg (v : Vec) : 0 ≤ sumSq v := by
  unfold sumSq
  induction v with
  | nil => simp
  | cons x t ih =>
    rw [List.map_cons, List.sum_cons]
    have := mul_self_nonneg x
    linarith

theorem sq_le_sumSq {x : ℝ} {v : Vec} (hx : x ∈ v) : x * x ≤ sumSq v := by
  unfold sumSq
  induction v with
  | nil => cases hx
  | cons y t ih =>
    rw [List.map_cons, List.sum_cons]
    rcases List.mem_cons.mp hx with rfl | hmem
    · have : 0 ≤ (t.map (fun a => a * a)).sum := sumSq_nonneg t
      linarith
    · have := ih hmem
      have := mul_self_nonneg y
      linarith

/-- C8: for every vector of unit Euclidean norm, the defensive
re-normalization in `add_vectors` (division by the norm) returns the vector
unchanged, and the encoder's epsilon-guarded normalization (division by norm
plus `1e-8`) moves each component by at most `1e-8`. -/
theorem normalizationIdempotent (v : Vec) (hv : sumSq v = 1) :
    l2RenormRow v = v ∧
      ∃ u, normalize_embeddings [v] = [u] ∧
        ∀ i : Nat, |u.getD i 0 - v.getD i 0| ≤ 1e-8 := by
  have hnorm : vecNorm v = 1 := by
    unfold vecNorm
    rw [hv]
    exact Real.sqrt_one
  constructor
  · unfold l2RenormRow
    rw [hnorm]
    simp
  · refine ⟨v.map (fun x => x / (1 + 1e-8)), ?_, ?_⟩
    · unfold normalize_embeddings
      rw [List.map_cons]
      rw [hnorm]
      rfl
    · intro i
      have hc : (0 : ℝ) < 1 + 1e-8 := by norm_num
      by_cases hi : i < v.length
      · have hmap : (v.map (fun x => x / (1 + 1e-8))).getD i 0 =
            v[i] / (1 + 1e-8) := by
          rw [List.getD_eq_getElem _ _ (by simpa using hi), List.getElem_map]
        rw [hmap, List.getD_eq_getElem _ _ hi]
        set x := v[i] with hxdef
        have hx2 : x * x ≤ 1 := hv ▸ sq_le_sumSq (List.getElem_mem hi)
        have habs : |x| ≤ 1 := by nlinarith [abs_nonneg x, abs_mul_abs_self x]
        have hrw : x / (1 + 1e-8) - x = -(x * 1e-8) / (1 + 1e-8) := by
          field_simp
          ring
        rw [hrw, abs_div, abs_neg, abs_mul, abs_of_pos hc]
        rw [div_le_iff₀ hc]
        have h8 : |(1e-8 : ℝ)| = 1e-8 := by
          rw [abs_of_pos]
          norm_num
        rw [h8]
        nlinarith [abs_nonneg x]
      · rw [List.getD_eq_default _ _ (by simpa using Nat.le_of_not_lt hi),
          List.getD_eq_default _ _ (Nat.le_of_not_lt hi)]
        simp
        norm_num

/-- Witness for C8 at the unit vector `[1, 0]`. -/
theorem normalizationIdempotent_witness :
    sumSq [(1 : ℝ), 0] = 1 ∧ l2RenormRow [(1 : ℝ), 0] = [(1 : ℝ), 0] := by
  have h : sumSq [(1 : ℝ), 0] = 1 := by norm_num [sumSq]
  exact ⟨h, (normalizationIdempotent [(1 : ℝ), 0] h).1⟩

/-! ### C5 — failed remote batches degrade to zero vectors, not exceptions -/

theorem flatMap_getElem?_offset {α β : Type} (f : α → List β) :
    ∀ (l : List α) (j : Nat) (b : α), l[j]? = some b →
      ∀ i, i < (f b).length →
        (l.flatMap f)[((l.take j).flatMap f).length + i]? = (f b)[i]? := by
  intro l
  induction l with
  | nil =>
    intro j b hj
    simp at hj
  | cons a t ih =>
    intro j b hj i hi
    cases j with
    | zero =>
      simp only [List.getElem?_cons_zero, Option.some.injEq] at hj
      subst hj
      rw [List.flatMap_cons]
      simp only [List.take_zero, List.flatMap_nil, List.length_nil, Nat.zero_add]
      exact List.getElem?_append_left hi
    | succ j' =>
      rw [List.flatMap_cons]
      simp only [List.take_succ_cons, List.flatMap_cons, List.length_append]
      rw [Nat.add_assoc, List.getElem?_append_right (Nat.le_add_right _ _),
        Nat.add_sub_cancel_left]
      exact ih j' b (by simpa using hj) i hi

theorem nim_failed_batch_rows (w : World) (model : String) (dim : Nat)
    (inputs : List String) (bs j : Nat) (b : List String)
    (hj : (chunkList inputs bs)[j]? = some b) (hfail : w.nimEmbed model b = none) :
    ∀ i, i < b.length →
      (nimEncodeRaw w model dim inputs bs)[(((chunkList inputs bs).take j).flatMap
        (nimBatchRows w model dim)).length + i]? = some (List.replicate dim 0) := by
  intro i hi
  unfold nimEncodeRaw normalize_embeddings
  rw [List.getElem?_map]
  have hrows : nimBatchRows w model dim b =
      List.replicate b.length (List.replicate dim 0) := by
    unfold nimBatchRows
    rw [hfail]
  have hlen : i < (nimBatchRows w model dim b).length := by
    rw [hrows, List.length_replicate]
    exact hi
  rw [flatMap_getElem?_offset (nimBatchRows w model dim) (chunkList inputs bs) j b hj i hlen]
  rw [hrows, List.getElem?_replicate_of_lt hi]
  simp only [Option.map_some']
  congr 1
  rw [List.map_replicate, zero_div]

theorem dotProduct_replicate_zero (n : Nat) (v : Vec) :
    dotProduct (List.replicate n 0) v = 0 := by
  unfold dotProduct
  induction n generalizing v with
  | zero => simp
  | succ k ih =>
    cases v with
    | nil => simp
    | cons x t =>
      rw [List.replicate_succ, List.zip_cons_cons, List.map_cons, List.sum_cons]
      rw [ih t]
      simp

theorem similarity_of_zero_query (dim : Nat) (M : List Vec) :
    compute_similarity (List.replicate dim 0) M = List.replicate M.length 0 := by
  unfold compute_similarity normalize_embeddings
  rw [List.map_cons]
  simp only [List.headD_cons]
  rw [List.map_replicate, zero_div, List.map_map]
  have hfun : ((fun v => dotProduct (List.replicate dim 0) v) ∘
      fun v => v.map (fun x => x / (vecNorm v + 1e-8))) = fun _ : Vec => (0 : ℝ) :=
    funext fun v => dotProduct_replicate_zero dim _
  rw [hfun]
  exact List.map_const' M (0 : ℝ)

/-- C5: when a remote embeddings request fails for a batch, `encode_images`
and `encode_text` do not raise — every output row of that batch is a zero
vector of length `get_embedding_dim()`, it is exactly zero even after the
1e-8-guarded normalization, and such a row has similarity 0 against every
candidate matrix. -/
theorem remoteFailureZeroFill (w : World) (model : String) (images : List Img)
    (texts : List String) (bs₁ bs₂ jI jT : Nat) (bI bT : List String)
    (key : Option String)
    (hI : (chunkList (images.map w.imgToB64) bs₁)[jI]? = some bI)
    (hIf : w.nimEmbed model bI = none)
    (hT : (chunkList texts bs₂)[jT]? = some bT)
    (hTf : w.nimEmbed model bT = none) :
    (∀ i, i < bI.length →
      (nimEncodeImages w model images bs₁)[(((chunkList (images.map w.imgToB64)
          bs₁).take jI).flatMap (nimBatchRows w model (nimEmbeddingDim model))).length
          + i]? = some (List.replicate (nimEmbeddingDim model) 0)) ∧
    (∀ i, i < bT.length →
      (nimEncodeText w model texts bs₂)[(((chunkList texts bs₂).take jT).flatMap
          (nimBatchRows w model (nimEmbeddingDim model))).length + i]? =
        some (List.replicate (nimEmbeddingDim model) 0)) ∧
    Encoder.get_embedding_dim w ⟨.nvidia_nim, model, key⟩ = nimEmbeddingDim model ∧
    (∀ M : List Vec, compute_similarity (List.replicate (nimEmbeddingDim model) 0) M
      = List.replicate M.length 0) := by
  refine ⟨?_, ?_, rfl, fun M => similarity_of_zero_query _ M⟩
  · intro i hi
    unfold nimEncodeImages
    exact nim_failed_batch_rows w model _ _ bs₁ jI bI hI hIf i hi
  · intro i hi
    unfold nimEncodeText
    exact nim_failed_batch_rows w model _ _ bs₂ jT bT hT hTf i hi

/-- Witness for C5: under `wDemo` every remote request fails; the first row
of the encoded output is the zero vector of nvclip's dimension 512. -/
theorem remoteFailureZeroFill_witness :
    (chunkList (["a.jpg"].map wDemo.imgToB64) 10)[0]? = some ["a.jpg"] ∧
      wDemo.nimEmbed "nvidia/nvclip" ["a.jpg"] = none ∧
      (nimEncodeImages wDemo "nvidia/nvclip" ["a.jpg"] 10)[0]? =
        some (List.replicate 512 0) := by
  have h := remoteFailureZeroFill wDemo "nvidia/nvclip" ["a.jpg"] ["t"] 10 20 0 0
    ["a.jpg"] ["t"] none rfl rfl rfl rfl
  refine ⟨rfl, rfl, ?_⟩
  have h0 := h.1 0 (by decide)
  have h512 : nimEmbeddingDim "nvidia/nvclip" = 512 := by decide
  rw [h512] at h0
  simp only [List.take_zero, List.flatMap_nil, List.length_nil, Nat.zero_add] at h0
  exact h0

/-! ### C4 — failed ingestion batches are skipped wholesale -/

theorem chunkList_nil {α : Type} (bs : Nat) : chunkList ([] : List α) bs = [] := by
  unfold chunkList chunkListAux
  split <;> rfl

theorem ingest_foldl (w : World) (bs : Nat) (e : Encoder) :
    ∀ (bl : List (List Img)) (s : System) (n : Nat), s.encoder = e →
      (bl.foldl (ingestStep w bs) (s, n)).1.encoder = e ∧
      (bl.foldl (ingestStep w bs) (s, n)).2 =
        n + ((bl.filter (fun b => (e.encode_images w b bs).isSome)).map List.length).sum ∧
      (bl.foldl (ingestStep w bs) (s, n)).1.index.image_paths =
        s.index.image_paths ++
          (bl.filter (fun b => (e.encode_images w b bs).isSome)).flatten ∧
      (bl.foldl (ingestStep w bs) (s, n)).1.image_database =
        ((bl.filter (fun b => (e.encode_images w b bs).isSome)).flatten).foldl
          (fun d p => pyDictInsert d p (w.extractMeta p)) s.image_database := by
  intro bl
  induction bl with
  | nil =>
    intro s n hs
    exact ⟨hs, by simp, by simp, by simp⟩
  | cons b rest ih =>
    intro s n hs
    rw [List.foldl_cons]
    by_cases hb : (e.encode_images w b bs).isSome
    · obtain ⟨embs, hembs⟩ := Option.isSome_iff_exists.mp hb
      have hsome : s.encoder.encode_images w b bs = some embs := by rw [hs]; exact hembs
      have hstep : ingestStep w bs (s, n) b =
          ({ s with
              image_database := b.foldl
                (fun d p => pyDictInsert d p (w.extractMeta p)) s.image_database
              index := s.index.add_vectors embs b (some (b.map w.extractMeta)) },
            n + b.length) := by
        unfold ingestStep
        rw [hsome]
      rw [hstep]
      have hfc : List.filter (fun x => (e.encode_images w x bs).isSome) (b :: rest) =
          b :: List.filter (fun x => (e.encode_images w x bs).isSome) rest :=
        List.filter_cons_of_pos hb
      obtain ⟨ih1, ih2, ih3, ih4⟩ := ih
        { s with
            image_database := b.foldl
              (fun d p => pyDictInsert d p (w.extractMeta p)) s.image_database
            index := s.index.add_vectors embs b (some (b.map w.extractMeta)) }
        (n + b.length) hs
      rw [hfc]
      refine ⟨ih1, ?_, ?_, ?_⟩
      · rw [ih2, List.map_cons, List.sum_cons]
        omega
      · rw [ih3, List.flatten_cons]
        rw [show ({ s with
            image_database := b.foldl
              (fun d p => pyDictInsert d p (w.extractMeta p)) s.image_database
            index := s.index.add_vectors embs b (some (b.map w.extractMeta)) } :
              System).index = s.index.add_vectors embs b (some (b.map w.extractMeta))
          from rfl]
        rw [(add_vectors_fields s.index embs b (some (b.map w.extractMeta))).1]
        rw [List.append_assoc]
      · rw [ih4, List.flatten_cons, List.foldl_append]
    · have hnone : e.encode_images w b bs = none := Option.not_isSome_iff_eq_none.mp hb
      have hnone' : s.encoder.encode_images w b bs = none := by rw [hs]; exact hnone
      have hstep : ingestStep w bs (s, n) b = (s, n) := by
        unfold ingestStep
        rw [hnone']
      have hfc : List.filter (fun x => (e.encode_images w x bs).isSome) (b :: rest) =
          List.filter (fun x => (e.encode_images w x bs).isSome) rest :=
        List.filter_cons_of_neg (by simpa using hb)
      rw [hstep, hfc]
      exact ih s n hs

/-- C4: during `add_images_from_directory` a batch whose encoding raises is
skipped entirely — it contributes nothing to the index's path list or to the
metadata store and is not retried — processing continues with the remaining
batches; the method returns the count of successfully ingested images, and an
empty file enumeration returns 0 with the system unchanged. -/
theorem batchFailureSkipsWholeBatch (w : World) (s : System) (files : List String)
    (bs : Nat) (_hbs : 0 < bs) :
    (files = [] → s.add_images_from_directory w files bs = (s, 0)) ∧
      (s.add_images_from_directory w files bs).2 =
        (((chunkList files bs).filter
          (fun b => (s.encoder.encode_images w b bs).isSome)).map List.length).sum ∧
      (s.add_images_from_directory w files bs).1.index.image_paths =
        s.index.image_paths ++
          ((chunkList files bs).filter
            (fun b => (s.encoder.encode_images w b bs).isSome)).flatten ∧
      (s.add_images_from_directory w files bs).1.image_database =
        (((chunkList files bs).filter
          (fun b => (s.encoder.encode_images w b bs).isSome)).flatten).foldl
          (fun d p => pyDictInsert d p (w.extractMeta p)) s.image_database := by
  by_cases hf : files = []
  · subst hf
    have hempty : s.add_images_from_directory w [] bs = (s, 0) := by
      unfold System.add_images_from_directory
      simp
    refine ⟨fun _ => hempty, ?_, ?_, ?_⟩ <;> rw [hempty, chunkList_nil] <;> simp
  · have key := ingest_foldl w bs s.encoder (chunkList files bs) s 0 rfl
    have hrw : s.add_images_from_directory w files bs =
        (chunkList files bs).foldl (ingestStep w bs) (s, 0) := by
      unfold System.add_images_from_directory
      rw [if_neg hf]
    refine ⟨fun h => absurd h hf, ?_, ?_, ?_⟩ <;> rw [hrw]
    · rw [key.2.1, Nat.zero_add]
    · exact key.2.2.1
    · exact key.2.2.2

/-- A world in which encoding the image "bad.jpg" raises. -/
def wFail : World :=
  { wDemo with localImageForward := fun _ _ i => if i = "bad.jpg" then none else some [1, 0] }

/-- Witness for C4: ingesting two one-file batches, one of which fails. -/
theorem batchFailureSkipsWholeBatch_witness :
    (0 : Nat) < 1 ∧
      (sEmpty.add_images_from_directory wFail ["good.jpg", "bad.jpg"] 1).2 =
        (((chunkList ["good.jpg", "bad.jpg"] 1).filter
          (fun b => (sEmpty.encoder.encode_images wFail b 1).isSome)).map List.length).sum :=
  ⟨by decide,
    (batchFailureSkipsWholeBatch wFail sEmpty ["good.jpg", "bad.jpg"] 1 (by decide)).2.1⟩

/-! ### C1 — save/load round trip preserves stats and search results -/

theorem orPyDefault_reapply (mn : Option String) (d : String) :
    orPyDefault (some (orPyDefault mn d)) d = orPyDefault mn d := by
  cases mn with
  | none => simp [orPyDefault]
  | some s =>
    by_cases hs : s = ""
    · subst hs
      simp [orPyDefault]
    · simp [orPyDefault, hs]

theorem createEncoder_reload {t : String} {mn k : Option String} {e : Encoder}
    (h : createEncoder t mn k = some e) (k' : Option String) :
    ∃ e', createEncoder t (some e.model_name) k' = some e' ∧
      e'.kind = e.kind ∧ e'.model_name = e.model_name := by
  unfold createEncoder at h ⊢
  by_cases h1 : pyLower t = "clip"
  · rw [if_pos h1] at h ⊢
    cases h
    exact ⟨_, rfl, rfl, orPyDefault_reapply mn _⟩
  · rw [if_neg h1] at h ⊢
    by_cases h2 : pyLower t = "siglip"
    · rw [if_pos h2] at h ⊢
      cases h
      exact ⟨_, rfl, rfl, orPyDefault_reapply mn _⟩
    · rw [if_neg h2] at h ⊢
      by_cases h3 : pyLower t = "nvidia_nim"
      · rw [if_pos h3] at h ⊢
        cases h
        exact ⟨_, rfl, rfl, orPyDefault_reapply mn _⟩
      · rw [if_neg h3] at h
        cases h

theorem encode_text_congr (w : World) (e e' : Encoder) (hk : e'.kind = e.kind)
    (hm : e'.model_name = e.model_name) (texts : List String) (bs : Nat) :
    e'.encode_text w texts bs = e.encode_text w texts bs := by
  unfold Encoder.encode_text
  rw [hk, hm]

theorem encode_images_congr (w : World) (e e' : Encoder) (hk : e'.kind = e.kind)
    (hm : e'.model_name = e.model_name) (images : List Img) (bs : Nat) :
    e'.encode_images w images bs = e.encode_images w images bs := by
  unfold Encoder.encode_images
  rw [hk, hm]

theorem get_embedding_dim_congr (w : World) (e e' : Encoder) (hk : e'.kind = e.kind)
    (hm : e'.model_name = e.model_name) :
    e'.get_embedding_dim w = e.get_embedding_dim w := by
  unfold Encoder.get_embedding_dim
  rw [hk, hm]

theorem get_stats_congr (w : World) (s₁ s₂ : System)
    (het : s₁.encoder_type = s₂.encoder_type) (hik : s₁.index = s₂.index)
    (hdb : s₁.image_database = s₂.image_database)
    (hk : s₁.encoder.kind = s₂.encoder.kind)
    (hm : s₁.encoder.model_name = s₂.encoder.model_name) :
    s₁.get_stats w = s₂.get_stats w := by
  unfold System.get_stats Encoder.get_embedding_dim
  rw [het, hik, hdb, hk, hm]

theorem search_congr (w : World) (s₁ s₂ : System) (hik : s₁.index = s₂.index)
    (hdb : s₁.image_database = s₂.image_database)
    (hk : s₁.encoder.kind = s₂.encoder.kind)
    (hm : s₁.encoder.model_name = s₂.encoder.model_name) :
    (∀ q k rm, s₁.search w q k rm = s₂.search w q k rm) ∧
      (∀ img k rm, s₁.search_by_image w img k rm = s₂.search_by_image w img k rm) := by
  constructor
  · intro q k rm
    unfold System.search
    rw [hik, hdb, hk, encode_text_congr w s₂.encoder s₁.encoder hk hm]
  · intro img k rm
    unfold System.search_by_image
    rw [hik, hdb, hk, encode_images_congr w s₂.encoder s₁.encoder hk hm]

theorem load_system_eq (w : World) (s₀ s : System) (key : Option String)
    (e' : Encoder)
    (hre : createEncoder s.encoder_type (some s.encoder.model_name) key = some e') :
    s₀.load_system w (s.save_system w) key = some
      { s₀ with
          encoder_type := s.encoder_type
          nvidia_api_key := key
          encoder := e'
          index := s.index
          image_database := s.image_database } := by
  unfold System.load_system System.save_system
  rw [hre]
  rfl

/-- C1: saving a system with a non-empty index and loading it into a fresh
instance yields a system with identical `get_stats()` and identical
`search`/`search_by_image` results for every query and `top_k`; loading
overwrites the in-memory path list, metadata map, dimension, structure type
and vector store with the persisted values — nothing of the pre-existing
state of the loading instance is merged in. -/
theorem saveLoadRoundTrip (w : World) (s s₀ : System) (key : Option String)
    (hwf : s.WF) (_hne : 1 ≤ s.index.inner.ntotal) :
    ∃ s', s₀.load_system w (s.save_system w) key = some s' ∧
      s'.get_stats w = s.get_stats w ∧
      (∀ q k rm, s'.search w q k rm = s.search w q k rm) ∧
      (∀ img k rm, s'.search_by_image w img k rm = s.search_by_image w img k rm) ∧
      s'.index.image_paths = s.index.image_paths ∧
      s'.index.metadata = s.index.metadata ∧
      s'.index.embedding_dim = s.index.embedding_dim ∧
      s'.index.index_type = s.index.index_type ∧
      s'.index.inner = s.index.inner := by
  obtain ⟨mn, k₀, hce⟩ := hwf
  obtain ⟨e', hre, hk, hm⟩ := createEncoder_reload hce key
  have hst := get_stats_congr w
    (System.mk s.encoder_type s₀.index_type key e' s.index s.image_database) s
    rfl rfl rfl hk hm
  have hsc := search_congr w
    (System.mk s.encoder_type s₀.index_type key e' s.index s.image_database) s
    rfl rfl hk hm
  exact ⟨_, load_system_eq w s₀ s key e' hre, hst, hsc.1, hsc.2, rfl, rfl, rfl, rfl,
    rfl⟩

/-- A populated system over `idxDemo` with a CLIP encoder. -/
def sDemo : System :=
  ⟨"clip", "flat", none, ⟨.clip, "openai/clip-vit-base-patch32", none⟩, idxDemo,
    [("a.jpg", [("filename", "a.jpg")])]⟩

/-- Witness for C1: round-tripping a concrete populated system into a fresh
empty instance preserves its stats. -/
theorem saveLoadRoundTrip_witness :
    sDemo.WF ∧ 1 ≤ sDemo.index.inner.ntotal ∧
      ∃ s', sEmpty.load_system wDemo (sDemo.save_system wDemo) none = some s' ∧
        s'.get_stats wDemo = sDemo.get_stats wDemo := by
  have hwf : sDemo.WF := ⟨some "openai/clip-vit-base-patch32", none, by decide⟩
  have hne : 1 ≤ sDemo.index.inner.ntotal := Nat.le.refl
  obtain ⟨s', h1, h2, -⟩ := saveLoadRoundTrip wDemo sDemo sEmpty none hwf hne
  exact ⟨hwf, hne, s', h1, h2⟩

/-! ### C10 — loading does not touch the system-level index_type field -/

/-- C10: `load_system` updates the encoder type, the encoder, the index
contents and the image metadata map, but leaves the system-level `index_type`
at its construction-time value; re-saving a system that was constructed with
structure type A and then loaded artifacts whose sidecar records structure
type B writes A, not B, into the configuration document. -/
theorem loadKeepsSystemIndexType (w : World) (sA sB : System) (key : Option String)
    (A B : String) (hwf : sB.WF) (hA : sA.index_type = A)
    (hB : sB.index.index_type = B) (hAB : A ≠ B) :
    ∃ s', sA.load_system w (sB.save_system w) key = some s' ∧
      s'.index_type = A ∧
      s'.index.index_type = B ∧
      s'.encoder_type = sB.encoder_type ∧
      s'.encoder.kind = sB.encoder.kind ∧
      s'.encoder.model_name = sB.encoder.model_name ∧
      s'.index = sB.index ∧
      s'.image_database = sB.image_database ∧
      (s'.save_system w).config.index_type = A ∧
      (s'.save_system w).config.index_type ≠ B := by
  subst hA
  subst hB
  obtain ⟨mn, k₀, hce⟩ := hwf
  obtain ⟨e', hre, hk, hm⟩ := createEncoder_reload hce key
  exact ⟨_, load_system_eq w sA sB key e' hre, rfl, rfl, rfl, hk, hm, rfl, rfl, rfl,
    hAB⟩

/-- A system constructed over an untrained IVF index with a SigLIP encoder. -/
def sDemoB : System :=
  ⟨"siglip", "ivf", none, ⟨.siglip, "google/siglip-base-patch16-224", none⟩,
    ⟨2, "ivf", .ivf 2 100 false [] [], [], []⟩, []⟩

/-- Witness for C10: a "flat" system loading "ivf" artifacts re-saves "flat". -/
theorem loadKeepsSystemIndexType_witness :
    sEmpty.index_type = "flat" ∧ sDemoB.index.index_type = "ivf" ∧
      ∃ s', sEmpty.load_system wDemo (sDemoB.save_system wDemo) none = some s' ∧
        s'.index_type = "flat" ∧ (s'.save_system wDemo).config.index_type = "flat" := by
  have hwf : sDemoB.WF := ⟨none, none, by decide⟩
  obtain ⟨s', h1, h2, -, -, -, -, -, -, h9, -⟩ := loadKeepsSystemIndexType wDemo
    sEmpty sDemoB none "flat" "ivf" hwf rfl rfl (by decide)
  exact ⟨rfl, rfl, s', h1, h2, h9⟩

end TTIR
